import Mathlib

/-!
Shallow embedding of the Echoes backend core (src/api/utils.py and
src/api/etymology_service.py) for checking the specification's claims.

Modelling conventions:
* Python floats are modelled as real numbers (`ℝ`); the numeric payloads of
  JSON documents (embedding coordinates) are rationals (`ℚ`), cast to `ℝ`
  wherever the code performs floating-point arithmetic.
* `numpy` / `scikit-learn` behaviour is modelled by its documented semantics:
  `sklearn.metrics.pairwise.cosine_similarity` divides the dot product by the
  two L2 norms, with a zero norm replaced by 1 (`sklearn.preprocessing
  .normalize` replaces zero row norms by 1 before dividing); `np.array` over a
  ragged list of rows raises `ValueError` (numpy >= 1.24); `np.argsort`
  ascending is modelled as a stable insertion sort on indices (numpy uses
  insertion sort for the small arrays exercised here, which is stable).
* Exceptions are modelled with `Except`; a caught-and-recovered exception
  disappears into the recovery value, an uncaught one is a `.error`.
-/

namespace Echoes

/-! ### Vector arithmetic (numpy / sklearn model) -/

/-- Dot product of two rational vectors (`np.dot` on equal-length rows;
`zipWith` truncation never occurs on the rectangular inputs the code builds). -/
def dotQ (a b : List ℚ) : ℚ := (List.zipWith (· * ·) a b).sum

/-- Squared L2 norm. -/
def sqnormQ (a : List ℚ) : ℚ := dotQ a a

/-- The row norm used by `sklearn.preprocessing.normalize`: the L2 norm,
except that a zero norm is replaced by `1` (sklearn sets
`norms[norms == 0.0] = 1.0` to avoid division by zero). -/
noncomputable def normOrOne (a : List ℚ) : ℝ :=
  if sqnormQ a = 0 then 1 else Real.sqrt ((sqnormQ a : ℚ) : ℝ)

/-- `sklearn.metrics.pairwise.cosine_similarity` of two rows of equal
dimension: dot product of the two rows after `normalize`. -/
noncomputable def cosSim (a b : List ℚ) : ℝ :=
  ((dotQ a b : ℚ) : ℝ) / (normOrOne a * normOrOne b)

/-! ### Persisted items (src/api/utils.py) -/

/-- The JSON value found under an item's `"embedding"` key.  A well-formed
value is an array of numbers (`arr`); `notArr` stands for any other JSON
value (string, object, number, ...), all of which fail both
`isinstance(item["embedding"], (list, np.ndarray))` and the later
`np.array(..., dtype=float)` conversion. -/
inductive EmbVal where
  | arr (xs : List ℚ)
  | notArr
deriving DecidableEq

/-- One element of an era file's `"items"` array, as a JSON object whose
`"id"`, `"text"` and `"embedding"` keys may each be present or absent.
(`id` and `text` values are only ever copied around by the code, so they are
modelled directly as strings.) -/
structure RawItem where
  id : Option String
  text : Option String
  embedding : Option EmbVal
deriving DecidableEq

instance : Inhabited RawItem := ⟨⟨none, none, none⟩⟩

/-- `validate_item` (src/api/utils.py:21-39): `True` iff the item raises no
`EmbeddingValidationError`, i.e. all three required fields are present, the
embedding is a list, and that list is non-empty. -/
def validate_item (it : RawItem) : Bool :=
  it.id.isSome && it.text.isSome &&
    (match it.embedding with
     | some (.arr xs) => !xs.isEmpty
     | some .notArr => false
     | none => false)

/-- The predicate actually used by the list comprehension at
src/api/utils.py:72-73: `all(field in item for field in ["id", "text",
"embedding"])` — field *presence* only. -/
def hasRequiredFields (it : RawItem) : Bool :=
  it.id.isSome && it.text.isSome && it.embedding.isSome

/-- The parsed content of one era file.  `badJson` is a file whose bytes fail
`json.load` (raised as `EmbeddingValidationError`); `doc items` is a JSON
object whose `"items"` key holds the given array (a missing `"items"` key is
`doc []`, per `js.get("items", [])`). -/
inductive EraFile where
  | badJson
  | doc (items : List RawItem)
deriving DecidableEq

/-- `load_era_items` (src/api/utils.py:41-78) for a file that exists on disk.
A `json.JSONDecodeError` is re-raised as `EmbeddingValidationError`
(`.error ()`); otherwise the items are filtered by field presence (the
`validate_item` loop at lines 64-69 only logs; its outcome is discarded) and
returned, possibly empty. -/
def load_era_items : EraFile → Except Unit (List RawItem)
  | .badJson => .error ()
  | .doc items => .ok (items.filter hasRequiredFields)

/-! ### numpy conversion, similarity search, centroid, drift -/

/-- The list comprehension `[np.array(it["embedding"], dtype=float) for it in
items]`: extraction stops at the first item whose `"embedding"` is missing
(`KeyError`) or not a list (`ValueError`). -/
def extractEmbs : List RawItem → Except Unit (List (List ℚ))
  | [] => .ok []
  | it :: t =>
      match it.embedding with
      | some (.arr xs) =>
          match extractEmbs t with
          | .ok rest => .ok (xs :: rest)
          | .error e => .error e
      | _ => .error ()

/-- `_to_numpy_embeddings` (src/api/utils.py:111-120).  An empty item list
gives the empty array.  Otherwise every item's `"embedding"` value is
converted with `np.array(..., dtype=float)` (a missing key raises `KeyError`,
a non-list value raises `ValueError`), and the rows are stacked with
`np.array`, which raises `ValueError` on ragged rows.  Every raised error is
re-raised as `EmbeddingValidationError` (`.error ()`). -/
def toNumpyEmbeddings (items : List RawItem) : Except Unit (List (List ℚ)) :=
  if items.isEmpty then .ok []
  else
    match extractEmbs items with
    | .error e => .error e
    | .ok [] => .ok []
    | .ok (e :: rest) =>
        if rest.all (fun r => r.length = e.length) then .ok (e :: rest)
        else .error ()

/-- `X.size` of the stacked array: the total number of scalar entries. -/
def embsSize (embs : List (List ℚ)) : Nat := (embs.map List.length).sum

/-- One element of `top_similar_in_era`'s result list. -/
structure OutEntry where
  id : String
  text : String
  score : ℝ

/-- The index-comparison relation underlying `np.argsort(sims)`:
index `i` sorts no later than index `j` when `sims[i] <= sims[j]`. -/
def simLE (sims : List ℝ) (i j : ℕ) : Prop := sims.getD i 0 ≤ sims.getD j 0

noncomputable instance (sims : List ℝ) : DecidableRel (simLE sims) :=
  fun _ _ => Classical.dec _

/-- `np.argsort(sims)`: the indices `0 .. len-1` stably sorted ascending by
their similarity value. -/
noncomputable def argsortAsc (sims : List ℝ) : List ℕ :=
  List.insertionSort (simLE sims) (List.range sims.length)

/-- `cosine_similarity([query_emb], X)[0]`: the similarity of the query
against every row. -/
noncomputable def simVals (query_emb : List ℚ) (embs : List (List ℚ)) :
    List ℝ :=
  embs.map (cosSim query_emb)

/-- The result-building loop at src/api/utils.py:150-156: one output record
per selected index, in selection order; a missing `"id"` or `"text"` key
would raise `KeyError` (uncaught). -/
def buildOut (items : List RawItem) (sims : List ℝ) :
    List ℕ → Except Unit (List OutEntry)
  | [] => .ok []
  | i :: t =>
      match (items.getD i default).id, (items.getD i default).text with
      | some s, some tx =>
          match buildOut items sims t with
          | .ok rest => .ok (⟨s, tx, sims.getD i 0⟩ :: rest)
          | .error e => .error e
      | _, _ => .error ()

/-- `top_similar_in_era` (src/api/utils.py:122-160).  Returns `.ok` results on
the normal path and on every degenerate path whose exception is caught
(`EmbeddingValidationError` → `[]`); a dimension mismatch between the query
and the stacked item matrix makes `sklearn.cosine_similarity` raise
`ValueError`, which the function does *not* catch (`.error ()`). -/
noncomputable def top_similar_in_era (query_emb : List ℚ) (items : List RawItem)
    (top_n : Nat) : Except Unit (List OutEntry) :=
  if items.isEmpty then .ok []
  else if query_emb.isEmpty then .ok []
  else
    match toNumpyEmbeddings items with
    | .error _ => .ok []
    | .ok embs =>
      if embsSize embs = 0 then .ok []
      else if embs.any (fun e => e.length ≠ query_emb.length) then .error ()
      else
        let sims : List ℝ := simVals query_emb embs
        let idx := (argsortAsc sims).reverse.take (min top_n items.length)
        buildOut items sims idx

/-- `compute_centroid` (src/api/utils.py:162-174): dimension-wise mean of the
item embeddings; `None` for an empty item list, an empty stacked array, or a
failed numpy conversion. -/
def compute_centroid (items : List RawItem) : Option (List ℚ) :=
  if items.isEmpty then none
  else
    match toNumpyEmbeddings items with
    | .error _ => none
    | .ok embs =>
      if embsSize embs = 0 then none
      else
        some ((embs.foldr (List.zipWith (· + ·)) (List.replicate
          (embs.headD []).length 0)).map (· / (embs.length : ℚ)))

/-- `centroid_shift_score` (src/api/utils.py:176-193).  `0.0` when either
centroid is `None`.  Otherwise `1 - cosine_similarity(a, b)`; the `except
Exception` handler turns every internal error into `0.0` — `reshape(1, -1)`
raises on a size-0 array (empty centroid), and `cosine_similarity` raises on
a dimension mismatch. -/
noncomputable def centroid_shift_score :
    Option (List ℚ) → Option (List ℚ) → ℝ
  | none, _ => 0
  | _, none => 0
  | some a, some b =>
      if a.isEmpty ∨ b.isEmpty ∨ a.length ≠ b.length then 0
      else 1 - cosSim a b

/-! ### Directory loading and the timeline (src/api/utils.py) -/

/-- An era record loaded from disk: `{ "era": ..., "items": [...] }`. -/
structure Era where
  era : String
  items : List RawItem
deriving DecidableEq

/-- The state of the `embeddings/` directory tree: for each concept name,
`none` when `embeddings/<concept>` does not exist, otherwise its directory
listing as (file name, parsed file content) pairs.  File names within one
directory are unique, so sorting the pairs by name models
`sorted([x.name for x in base.iterdir() ...])` followed by per-name reads. -/
def Disk := String → Option (List (String × EraFile))

/-- `x.suffix == ".json"`, modelled as the name ending in `".json"` (the two
agree on every ordinary file name; bare-dot names like `".json"` itself are
not exercised). -/
def isJsonName (fn : String) : Bool :=
  fn.data.reverse.take 5 == ".json".data.reverse

/-- Left-to-right non-overlapping removal of every `".json"` occurrence, on
the character list; the first argument is fuel (the list length bounds the
number of steps). -/
def removeJsonAux : Nat → List Char → List Char
  | 0, _ => []
  | _, [] => []
  | fuel + 1, c :: cs =>
      if (c :: cs).take 5 = ".json".data then removeJsonAux fuel (cs.drop 4)
      else c :: removeJsonAux fuel cs

/-- Python's `fn.replace(".json", "")` — every occurrence removed,
left-to-right, non-overlapping. -/
def eraName (fn : String) : String := ⟨removeJsonAux fn.data.length fn.data⟩

/-- Lexicographic order on character lists by code point — Python's string
`<=`, which `sorted()` uses. -/
def charListLe : List Char → List Char → Bool
  | [], _ => true
  | _ :: _, [] => false
  | a :: as, b :: bs =>
      if a.toNat < b.toNat then true
      else if b.toNat < a.toNat then false
      else charListLe as bs

/-- Python string comparison for file names. -/
def nameLe (a b : String) : Bool := charListLe a.data b.data

/-- The body of `load_all_eras` (src/api/utils.py:80-109), before the
`lru_cache` wrapper: `FileNotFoundError` (`.error ()`) when the concept
directory is missing; otherwise every `.json` file in name-sorted order is
loaded with `load_era_items`, a file raising `EmbeddingValidationError` is
skipped, and an era is kept only when its loaded item list is non-empty. -/
def load_all_eras_uncached (d : Disk) (concept : String) :
    Except Unit (List Era) :=
  match d concept with
  | none => .error ()
  | some entries =>
      let sorted := List.insertionSort
        (fun a b : String × EraFile => nameLe a.1 b.1 = true)
        (entries.filter (fun e => isJsonName e.1))
      .ok (sorted.filterMap (fun e =>
        match load_era_items e.2 with
        | .error _ => none
        | .ok items =>
            if items.isEmpty then none else some ⟨eraName e.1, items⟩))

/-- The process-wide `@lru_cache(maxsize=128)` state of `load_all_eras`:
successful results keyed by concept name.  (Exceptions are never cached by
`lru_cache`; eviction never occurs below 128 distinct concepts, the regime
all claims address, so no eviction is modelled.) -/
abbrev EraMemo := List (String × List Era)

/-- `load_all_eras` (src/api/utils.py:80-109) with its `lru_cache`: a hit
returns the memoized result without touching the disk; a miss runs the body
and memoizes only a successful result. -/
def load_all_eras (d : Disk) (memo : EraMemo) (concept : String) :
    Except Unit (List Era) × EraMemo :=
  match memo.lookup concept with
  | some r => (.ok r, memo)
  | none =>
      match load_all_eras_uncached d concept with
      | .ok r => (.ok r, (concept, r) :: memo)
      | .error e => (.error e, memo)

/-- One timeline entry: `{ era, top, centroid_shift_from_prev }`. -/
structure TimelineEntry where
  era : String
  top : List OutEntry
  centroid_shift_from_prev : ℝ

/-- The result dictionary of `build_timeline_for_query`; `error` is the
optional `"error"` key. -/
structure TimelineResult where
  concept : String
  timeline : List TimelineEntry
  error : Option String

/-- The per-era loop of `build_timeline_for_query`
(src/api/utils.py:214-228), threading `prev_centroid`.  The first parameter
of the pair tracks the loop's `prev_centroid` variable; an uncaught exception
from `top_similar_in_era` aborts the whole call. -/
noncomputable def timelineLoop (query_emb : List ℚ) (top_n : Nat) :
    Option (List ℚ) → List Era → Except Unit (List TimelineEntry)
  | _, [] => .ok []
  | prev, e :: rest => do
      let top ← top_similar_in_era query_emb e.items top_n
      let c := compute_centroid e.items
      let shift : ℝ :=
        match prev with
        | none => 0
        | some _ => centroid_shift_score prev c
      let tl ← timelineLoop query_emb top_n c rest
      .ok (⟨e.era, top, shift⟩ :: tl)

/-- `build_timeline_for_query` (src/api/utils.py:195-230).  A missing concept
directory (`FileNotFoundError`) is caught and returned as an empty timeline
with the `"error"` key set to the exception's message; an empty era list is
returned as an empty timeline without an `"error"` key. -/
noncomputable def build_timeline_for_query (d : Disk) (memo : EraMemo)
    (concept : String) (query_emb : List ℚ) (top_n : Nat) :
    Except Unit TimelineResult × EraMemo :=
  match load_all_eras d memo concept with
  | (.error _, memo') =>
      (.ok ⟨concept, [],
        some ("Concept directory not found: embeddings/" ++ concept)⟩, memo')
  | (.ok eras, memo') =>
      if eras.isEmpty then (.ok ⟨concept, [], none⟩, memo')
      else
        match timelineLoop query_emb top_n none eras with
        | .error e => (.error e, memo')
        | .ok tl => (.ok ⟨concept, tl, none⟩, memo')

/-! ### Etymology service (src/api/etymology_service.py) -/

/-- The two exception classes `_call_openrouter` can raise:
`OpenRouterError` (carrying its message) and `TimeoutError`. -/
inductive CallErr where
  | openRouter (msg : String)
  | timeout
deriving DecidableEq

/-- The raw outcome of one `client.chat.completions.create` call:
it returns a `message.content` that may be `None`, or raises. -/
inductive ApiOutcome where
  | ok (content : Option String)
  | timeoutExc
  | otherExc (msg : String)
deriving DecidableEq

/-- One attempt of `_call_openrouter`
(src/api/etymology_service.py:91-123): `None` or `""` content raises
`OpenRouterError("Empty response from OpenRouter")` inside the `try`, which
the catch-all handler rewraps (like every non-timeout exception) as
`OpenRouterError("API call failed: ...")`; a `TimeoutError` is re-raised
unchanged. -/
def callBody : ApiOutcome → Except CallErr String
  | .ok none =>
      .error (.openRouter "API call failed: Empty response from OpenRouter")
  | .ok (some s) =>
      if s = "" then
        .error (.openRouter "API call failed: Empty response from OpenRouter")
      else .ok s
  | .timeoutExc => .error .timeout
  | .otherExc m => .error (.openRouter ("API call failed: " ++ m))

/-- `retry_if_exception_type((OpenRouterError, TimeoutError))`. -/
def retryable : CallErr → Bool
  | .openRouter _ => true
  | .timeout => true

/-- The `tenacity` retry loop: `body k` is the k-th attempt (0-based), the
second `Nat` is the number of attempts still allowed.  On the last allowed
attempt the body's outcome is returned unchanged (`reraise=True`); earlier
failed attempts retry only retryable exceptions.  Returns the outcome and
the number of attempts made. -/
def runAttempts (body : Nat → Except CallErr String) :
    Nat → Nat → Except CallErr String × Nat
  | k, 0 => (body k, k + 1)
  | k, 1 => (body k, k + 1)
  | k, n + 2 =>
      match body k with
      | .ok s => (.ok s, k + 1)
      | .error e =>
          if retryable e then runAttempts body (k + 1) (n + 1)
          else (.error e, k + 1)

/-- `_call_openrouter` (src/api/etymology_service.py:77-123) under its
`@retry(stop=stop_after_attempt(3), ..., reraise=True)` decorator, with the
upstream service's behaviour on each attempt given by `oracle`. -/
def call_openrouter (oracle : Nat → ApiOutcome) :
    Except CallErr String × Nat :=
  runAttempts (fun k => callBody (oracle k)) 0 3

/-- `settings.MAX_EXAMPLES_PER_ERA` (src/api/config.py:95). -/
def MAX_EXAMPLES_PER_ERA : Nat := 20

/-- Python's `str.strip()`: leading and trailing whitespace removed
(modelled on the character list; the ASCII whitespace classes suffice for
every string the claims exercise). -/
def pstrip (s : String) : String :=
  ⟨((s.data.dropWhile Char.isWhitespace).reverse.dropWhile
      Char.isWhitespace).reverse⟩

/-- Python's `str.lower()` (modelled character-wise). -/
def plower (s : String) : String := ⟨s.data.map Char.toLower⟩

/-- `lru_cache` key of `_cached_generation`: (word, eras tuple, count);
the word is already normalized by the caller. -/
abbrev CacheKey := String × List String × Nat

/-- The `@lru_cache(maxsize=100)` state of `_cached_generation`: raw
response text keyed by (word, eras, count).  Exceptions are never cached;
eviction below 100 distinct keys never occurs and is not modelled. -/
abbrev GenCache := List (CacheKey × String)

/-- The error classes `generate_word_evolution` can raise, in the spec's
taxonomy: `ValueError` from input validation is `InvalidInput`, `ValueError`
from `_parse_response` is `MalformedResponse`, and `OpenRouterError` /
`TimeoutError` are `UpstreamError` / `Timeout`. -/
inductive GenError where
  | invalidInput
  | malformedResponse
  | upstream (msg : String)
  | timeout
deriving DecidableEq

/-- `_cached_generation` (src/api/etymology_service.py:167-172): on a cache
hit the memoized raw text is returned without any upstream call; on a miss
the prompt is built and `_call_openrouter` is invoked, and `lru_cache`
stores the returned raw text — before anyone parses it.  `call` is the
retried upstream call and `buildPrompt` the pure `_build_prompt` template
(plain string formatting with no branching, irrelevant to every claim). -/
def cached_generation (call : String → Except CallErr String)
    (buildPrompt : String → List String → Nat → String)
    (cache : GenCache) (word : String) (eras : List String) (n : Nat) :
    Except CallErr String × GenCache :=
  match cache.lookup (word, eras, n) with
  | some raw => (.ok raw, cache)
  | none =>
      match call (buildPrompt word eras n) with
      | .ok raw => (.ok raw, ((word, eras, n), raw) :: cache)
      | .error e => (.error e, cache)

/-- `generate_word_evolution` (src/api/etymology_service.py:174-248).
Input validation in source order; the word is normalized (trim + lowercase)
before it is used as cache key; with caching enabled the raw text comes from
`_cached_generation`, otherwise from a direct `_call_openrouter`; the raw
text is then parsed (`parse` models `_parse_response`: `.error` is its
`ValueError`), and a parse failure propagates as `MalformedResponse`.  The
`except` clause at lines 246-248 re-raises unchanged.  Returns the outcome
and the resulting cache state. -/
def generate_word_evolution
    (call : String → Except CallErr String)
    (buildPrompt : String → List String → Nat → String)
    (parse : String → Except Unit (List (String × List String)))
    (cacheEnabled : Bool)
    (cache : GenCache) (word : String) (eras : List String)
    (num_examples : Nat) :
    Except GenError (List (String × List String)) × GenCache :=
  if pstrip word = "" then (.error .invalidInput, cache)
  else
    let w := plower (pstrip word)
    if eras.isEmpty then (.error .invalidInput, cache)
    else if num_examples < 1 ∨ MAX_EXAMPLES_PER_ERA < num_examples then
      (.error .invalidInput, cache)
    else if eras.any (fun e => pstrip e = "") then (.error .invalidInput, cache)
    else
      let step :=
        if cacheEnabled then cached_generation call buildPrompt cache w eras num_examples
        else (call (buildPrompt w eras num_examples), cache)
      match step with
      | (.error (.openRouter m), cache') => (.error (.upstream m), cache')
      | (.error .timeout, cache') => (.error .timeout, cache')
      | (.ok raw, cache') =>
          match parse raw with
          | .error _ => (.error .malformedResponse, cache')
          | .ok m => (.ok m, cache')

/-! ### Arithmetic helper lemmas -/

theorem sum_zipWith_self (a : List ℚ) :
    (List.zipWith (· * ·) a a).sum = (a.map (fun x => x * x)).sum := by
  induction a with
  | nil => rfl
  | cons x t ih => simp [ih]

theorem sqnormQ_nonneg (a : List ℚ) : 0 ≤ sqnormQ a := by
  rw [sqnormQ, dotQ, sum_zipWith_self]
  apply List.sum_nonneg
  intro x hx
  simp only [List.mem_map] at hx
  obtain ⟨y, _, rfl⟩ := hx
  exact mul_self_nonneg y

theorem sqnormQ_pos (a : List ℚ) (x : ℚ) (hx : x ∈ a) (hx0 : x ≠ 0) :
    0 < sqnormQ a := by
  rcases lt_or_eq_of_le (sqnormQ_nonneg a) with h | h
  · exact h
  · exfalso
    have hle : x * x ≤ (a.map (fun y => y * y)).sum := by
      apply List.single_le_sum
      · intro y hy
        simp only [List.mem_map] at hy
        obtain ⟨z, _, rfl⟩ := hy
        exact mul_self_nonneg z
      · exact List.mem_map_of_mem _ hx
    rw [sqnormQ, dotQ, sum_zipWith_self] at h
    rw [← h] at hle
    exact hx0 (mul_self_eq_zero.mp (le_antisymm hle (mul_self_nonneg x)))

theorem cosSim_self (c : List ℚ) (h : sqnormQ c ≠ 0) : cosSim c c = 1 := by
  unfold cosSim normOrOne
  rw [if_neg h]
  have hq : (0 : ℝ) ≤ ((sqnormQ c : ℚ) : ℝ) := by
    exact_mod_cast sqnormQ_nonneg c
  rw [Real.mul_self_sqrt hq]
  rw [show dotQ c c = sqnormQ c from rfl]
  rw [div_self]
  exact_mod_cast h

theorem centroid_shift_score_none_left (b : Option (List ℚ)) :
    centroid_shift_score none b = 0 := by cases b <;> rfl

theorem centroid_shift_score_none_right (a : Option (List ℚ)) :
    centroid_shift_score a none = 0 := by cases a <;> rfl

theorem centroid_shift_score_some_some (a b : List ℚ) :
    centroid_shift_score (some a) (some b) =
      if a.isEmpty ∨ b.isEmpty ∨ a.length ≠ b.length then 0
      else 1 - cosSim a b := rfl

/-! ### Claim theorems -/

/-- C5: `compute_centroid` of an empty item set is `none` (neither an error
nor a zero vector), and `centroid_shift_score` returns exactly `0.0` whenever
either centroid argument is `none`. -/
theorem centroid_empty_none_and_drift_none_zero :
    compute_centroid [] = none ∧
    (∀ b : Option (List ℚ), centroid_shift_score none b = 0) ∧
    (∀ a : Option (List ℚ), centroid_shift_score a none = 0) := by
  exact ⟨rfl, centroid_shift_score_none_left, centroid_shift_score_none_right⟩

/-- C10: the drift computation is total — it is a function into `ℝ`, the
`except Exception` handler at src/api/utils.py:191-193 turning every internal
error into `0.0`: with both arguments present, any input on which the cosine
computation would raise (mismatched dimensions, or an empty centroid that
`reshape(1, -1)` rejects) yields exactly `0.0`. -/
theorem centroid_shift_internal_error_zero (a b : List ℚ)
    (h : a.length ≠ b.length ∨ a = [] ∨ b = []) :
    centroid_shift_score (some a) (some b) = 0 := by
  rw [centroid_shift_score_some_some, if_pos]
  rcases h with h | h | h
  · exact Or.inr (Or.inr h)
  · exact Or.inl (by simp [h])
  · exact Or.inr (Or.inl (by simp [h]))

theorem centroid_shift_internal_error_zero_witness :
    centroid_shift_score (some [(1 : ℚ)]) (some [(1 : ℚ), 2]) = 0 :=
  centroid_shift_internal_error_zero [1] [1, 2] (Or.inl (by decide))

/-- C8: for every non-degenerate (non-empty, non-zero) centroid `c`, the
drift of `c` against itself is exactly `0.0`. -/
theorem centroid_shift_self_zero (c : List ℚ) (hne : c ≠ [])
    (hx : ∃ x ∈ c, x ≠ 0) :
    centroid_shift_score (some c) (some c) = 0 := by
  obtain ⟨x, hxc, hx0⟩ := hx
  have hq : sqnormQ c ≠ 0 := ne_of_gt (sqnormQ_pos c x hxc hx0)
  rw [centroid_shift_score_some_some, if_neg, cosSim_self c hq]
  · ring
  · push_neg
    refine ⟨?_, ?_, rfl⟩ <;> simp [hne]

theorem centroid_shift_self_zero_witness :
    centroid_shift_score (some [(1 : ℚ)]) (some [(1 : ℚ)]) = 0 :=
  centroid_shift_self_zero [1] (by decide) ⟨1, by decide, by decide⟩

/-- An item with all three fields present but an empty embedding list: it
fails `validate_item`'s shape checks but passes the presence-only filter. -/
def itemEmptyEmb : RawItem := ⟨some "b", some "tb", some (.arr [])⟩

/-- A fully valid item. -/
def itemGood : RawItem := ⟨some "a", some "ta", some (.arr [1])⟩

/-- C2: the claim says every loaded item satisfies the shape checks and the
surviving items still support similarity search and centroid computation.
The code's filter (src/api/utils.py:72-73) checks field *presence* only, so
an item with an empty embedding — rejected by `validate_item` — survives
loading, and its presence then makes the whole era's centroid `None` and its
similarity search return `[]`: the code contradicts its own
`# Filter out any items that failed validation` comment. -/
theorem load_era_items_keeps_shape_invalid_item :
    load_era_items (.doc [itemGood, itemEmptyEmb]) =
      .ok [itemGood, itemEmptyEmb] ∧
    validate_item itemEmptyEmb = false ∧
    hasRequiredFields itemEmptyEmb = true ∧
    compute_centroid [itemGood, itemEmptyEmb] = none ∧
    top_similar_in_era [1] [itemGood, itemEmptyEmb] 6 = .ok [] := by
  exact ⟨rfl, by decide, by decide, rfl, rfl⟩

/-! ### Retry-loop lemmas (C7) -/

theorem runAttempts_spec (body : Nat → Except CallErr String) :
    ∀ n, 1 ≤ n → ∀ k,
      (runAttempts body k n).1 = body ((runAttempts body k n).2 - 1) ∧
      k + 1 ≤ (runAttempts body k n).2 ∧
      (runAttempts body k n).2 ≤ k + n := by
  intro n
  induction n with
  | zero => intro h; omega
  | succ m ih =>
    intro _ k
    match m with
    | 0 => simp [runAttempts]
    | m' + 1 =>
      show (runAttempts body k (m' + 2)).1 =
          body ((runAttempts body k (m' + 2)).2 - 1) ∧ _ ∧ _
      rw [runAttempts]
      cases hb : body k with
      | ok s => simp [hb]
      | error e =>
        have hr : retryable e = true := by cases e <;> rfl
        obtain ⟨i1, i2, i3⟩ := ih (by omega) (k + 1)
        simp only [hr, if_true]
        exact ⟨i1, by omega, by omega⟩

theorem callBody_ok_ne_empty (o : ApiOutcome) (s : String)
    (h : callBody o = .ok s) : s ≠ "" := by
  cases o with
  | ok c =>
    cases c with
    | none => simp [callBody] at h
    | some t =>
      by_cases ht : t = ""
      · simp [callBody, ht] at h
      · rw [callBody, if_neg ht] at h
        cases h
        exact ht
  | timeoutExc => simp [callBody] at h
  | otherExc m => simp [callBody] at h

/-- C7: the generation client makes at most 3 attempts in total (and at
least one); its final outcome — success or re-raised failure — is exactly
the outcome of the last attempt's body, unchanged (`reraise=True`); only
`OpenRouterError` and `TimeoutError` are retried (every exception class the
body can produce is one of these two, and `retryable` reflects the
`retry_if_exception_type` tuple); a successful result is never the empty
string, because an empty (or `None`) response body is raised as an
`OpenRouterError` instead of returned. -/
theorem call_openrouter_retry_contract (oracle : Nat → ApiOutcome) :
    (1 ≤ (call_openrouter oracle).2 ∧ (call_openrouter oracle).2 ≤ 3) ∧
    (call_openrouter oracle).1 =
      callBody (oracle ((call_openrouter oracle).2 - 1)) ∧
    (∀ e : CallErr, retryable e = true) ∧
    (∀ s, (call_openrouter oracle).1 = .ok s → s ≠ "") ∧
    (∀ k, oracle k = .ok none ∨ oracle k = .ok (some "") →
      callBody (oracle k) =
        .error (.openRouter "API call failed: Empty response from OpenRouter")) := by
  obtain ⟨h1, h2, h3⟩ :=
    runAttempts_spec (fun k => callBody (oracle k)) 3 (by omega) 0
  refine ⟨⟨h2, by simpa using h3⟩, h1, fun e => by cases e <;> rfl, ?_, ?_⟩
  · intro s hs
    have hs' : (runAttempts (fun k => callBody (oracle k)) 0 3).1 = .ok s := hs
    rw [h1] at hs'
    exact callBody_ok_ne_empty _ _ hs'
  · rintro k (hk | hk) <;> rw [hk] <;> rfl

theorem call_openrouter_retry_contract_witness :
    (1 ≤ (call_openrouter (fun _ => ApiOutcome.ok (some ""))).2 ∧
      (call_openrouter (fun _ => ApiOutcome.ok (some ""))).2 ≤ 3) ∧
    callBody (ApiOutcome.ok (some "")) =
      .error (.openRouter "API call failed: Empty response from OpenRouter") :=
  ⟨(call_openrouter_retry_contract (fun _ => ApiOutcome.ok (some ""))).1,
   (call_openrouter_retry_contract (fun _ => ApiOutcome.ok (some ""))).2.2.2.2
     0 (Or.inr rfl)⟩

/-! ### Memoization (C9) -/

/-- C9: once `load_all_eras` has returned a (successful) result for a
concept, every later call for the same concept returns that same memoized
result and leaves the memo untouched, for **any** state of the on-disk era
files — additions, deletions, or edits included — so
`build_timeline_for_query` never observes on-disk changes for an
already-queried concept within one process (below the `lru_cache` capacity,
under which no eviction occurs). -/
theorem load_all_eras_memo_stable (d : Disk) (memo : EraMemo)
    (concept : String) (r : List Era)
    (h : (load_all_eras d memo concept).1 = .ok r) :
    ∀ d' : Disk,
      load_all_eras d' (load_all_eras d memo concept).2 concept =
        (.ok r, (load_all_eras d memo concept).2) ∧
      ∀ (q : List ℚ) (n : Nat),
        build_timeline_for_query d' (load_all_eras d memo concept).2
            concept q n =
          build_timeline_for_query d (load_all_eras d memo concept).2
            concept q n := by
  have hl : List.lookup concept (load_all_eras d memo concept).2 = some r := by
    unfold load_all_eras at h ⊢
    cases hm : List.lookup concept memo with
    | some r0 =>
      simp only [hm] at h ⊢
      cases h
      rfl
    | none =>
      simp only [hm] at h ⊢
      cases hb : load_all_eras_uncached d concept with
      | ok r0 =>
        simp only [hb] at h ⊢
        cases h
        simp [List.lookup]
      | error e =>
        simp only [hb] at h
        simp at h
  intro d'
  have hload : ∀ dx : Disk,
      load_all_eras dx (load_all_eras d memo concept).2 concept =
        (.ok r, (load_all_eras d memo concept).2) := by
    intro dx
    generalize hM : (load_all_eras d memo concept).2 = M at hl ⊢
    simp only [load_all_eras, hl]
  refine ⟨hload d', fun q n => ?_⟩
  unfold build_timeline_for_query
  rw [hload d', hload d]

theorem load_all_eras_memo_stable_witness :
    load_all_eras (fun _ => some [("x.json", EraFile.badJson)])
        (load_all_eras (fun _ => none) [("c", [])] "c").2 "c" =
      (.ok [], (load_all_eras (fun _ => none) [("c", [])] "c").2) :=
  ((load_all_eras_memo_stable (fun _ => none) [("c", [])] "c" [] rfl)
    (fun _ => some [("x.json", EraFile.badJson)])).1

/-! ### Missing-concept behaviour (C6) -/

/-- A disk on which the directory `embeddings/ghost` exists but holds no era
records at all. -/
def diskEmptyDir : Disk := fun c => if c = "ghost" then some [] else none

/-- C6 counterexample: the claim says that whenever no Era Records exist for
a concept, the returned empty-timeline result carries an error marker.  For
a concept whose directory exists but holds no era records, the code returns
the empty timeline with **no** error marker (`"error"` key absent,
src/api/utils.py:210-212). -/
theorem build_timeline_emptydir_no_marker :
    diskEmptyDir "ghost" = some [] ∧
    build_timeline_for_query diskEmptyDir [] "ghost" [1] 6 =
      (.ok ⟨"ghost", [], none⟩, [("ghost", [])]) := ⟨rfl, rfl⟩

/-- C6 (amended): with the concept not yet memoized, a **missing** concept
directory yields a structured empty-timeline result carrying the error
marker (no hard failure); a directory that exists but yields no era records
yields a structured empty-timeline result **without** an error marker (no
hard failure).  Callers must check for emptiness in both cases. -/
theorem build_timeline_no_records (d : Disk) (memo : EraMemo)
    (concept : String) (q : List ℚ) (n : Nat)
    (hm : List.lookup concept memo = none) :
    (d concept = none →
      build_timeline_for_query d memo concept q n =
        (.ok ⟨concept, [],
          some ("Concept directory not found: embeddings/" ++ concept)⟩,
          memo)) ∧
    (load_all_eras_uncached d concept = .ok [] →
      build_timeline_for_query d memo concept q n =
        (.ok ⟨concept, [], none⟩, (concept, []) :: memo)) := by
  constructor
  · intro hd
    unfold build_timeline_for_query load_all_eras load_all_eras_uncached
    simp only [hm, hd]
  · intro hu
    unfold build_timeline_for_query load_all_eras
    simp only [hm, hu]
    simp [timelineLoop]

theorem build_timeline_no_records_witness :
    build_timeline_for_query (fun _ => none) [] "lost" [1] 6 =
      (.ok ⟨"lost", [],
        some ("Concept directory not found: embeddings/" ++ "lost")⟩, []) :=
  (build_timeline_no_records (fun _ => none) [] "lost" [1] 6 rfl).1 rfl

/-! ### Caching of unparseable raw text (C1) -/

/-- C1 counterexample: a concrete run in which the upstream raw text
`"RAW"` fails structural parsing.  `generate` does fail with
`MalformedResponse` — but the Response Cache IS populated with the raw text
for the key, and a subsequent call with the same key against a dead
upstream (every attempt times out) is served the cached unparseable text
and fails with `MalformedResponse` again, never reaching upstream. -/
theorem generate_parse_failure_populates_cache :
    generate_word_evolution (fun _ => .ok "RAW") (fun _ _ _ => "")
        (fun _ => .error ()) true [] "privacy" ["1900s"] 5 =
      (.error .malformedResponse, [(("privacy", ["1900s"], 5), "RAW")]) ∧
    generate_word_evolution (fun _ => .error .timeout) (fun _ _ _ => "")
        (fun _ => .error ()) true [(("privacy", ["1900s"], 5), "RAW")]
        "privacy" ["1900s"] 5 =
      (.error .malformedResponse, [(("privacy", ["1900s"], 5), "RAW")]) :=
  ⟨rfl, rfl⟩

/-- C1 (amended): with caching enabled and a fresh key, when the upstream
call succeeds with raw text that fails structural parsing, `generate` fails
with `MalformedResponse` but the Response Cache HAS already been populated
with the raw text for that (normalized word, era tuple, count) key —
`lru_cache` memoizes `_cached_generation`'s successful return before
`_parse_response` runs — and consequently every subsequent call with the
same key, whatever the upstream then does, is served the cached unparseable
raw text from cache and fails with `MalformedResponse` again without a new
upstream call. -/
theorem generate_parse_failure_caches_raw
    (call : String → Except CallErr String)
    (buildPrompt : String → List String → Nat → String)
    (parse : String → Except Unit (List (String × List String)))
    (cache : GenCache) (word : String) (eras : List String) (n : Nat)
    (raw : String)
    (hw : pstrip word ≠ "") (he : eras ≠ [])
    (hn1 : 1 ≤ n) (hn2 : n ≤ MAX_EXAMPLES_PER_ERA)
    (hef : ∀ e ∈ eras, pstrip e ≠ "")
    (hmiss : List.lookup (plower (pstrip word), eras, n) cache = none)
    (hcall : call (buildPrompt (plower (pstrip word)) eras n) = .ok raw)
    (hparse : parse raw = .error ()) :
    generate_word_evolution call buildPrompt parse true cache word eras n =
      (.error .malformedResponse,
        ((plower (pstrip word), eras, n), raw) :: cache) ∧
    ∀ call' : String → Except CallErr String,
      generate_word_evolution call' buildPrompt parse true
          (((plower (pstrip word), eras, n), raw) :: cache) word eras n =
        (.error .malformedResponse,
          ((plower (pstrip word), eras, n), raw) :: cache) := by
  have hn : ¬(n < 1 ∨ MAX_EXAMPLES_PER_ERA < n) := by
    have h2 : n ≤ 20 := hn2
    unfold MAX_EXAMPLES_PER_ERA
    omega
  have hany : (eras.any fun e => decide (pstrip e = "")) = false := by
    rw [List.any_eq_false]
    intro e hee
    simpa using hef e hee
  constructor
  · unfold generate_word_evolution cached_generation
    rw [if_neg hw]
    simp only [hany, hn, hmiss, hcall]
    simp [he, hparse]
  · intro call'
    unfold generate_word_evolution cached_generation
    rw [if_neg hw]
    have hhit : List.lookup (plower (pstrip word), eras, n)
        (((plower (pstrip word), eras, n), raw) :: cache) = some raw := by
      simp [List.lookup]
    simp only [hany, hn, hhit]
    simp [he, hparse]

theorem generate_parse_failure_caches_raw_witness :
    generate_word_evolution (fun _ => .ok "RAW2") (fun _ _ _ => "")
        (fun _ => .error ()) true [] "echo" ["2020s"] 3 =
      (.error .malformedResponse, [(("echo", ["2020s"], 3), "RAW2")]) := by
  have h := (generate_parse_failure_caches_raw (fun _ => .ok "RAW2")
    (fun _ _ _ => "") (fun _ => .error ()) [] "echo" ["2020s"] 3 "RAW2"
    (by decide) (by decide) (by decide) (by decide) (by decide)
    rfl rfl rfl).1
  exact h

/-! ### Invalid eras in the timeline (C4) -/

/-- The §8 scenario disk: `1900s.json` holds one fully valid item,
`2020s.json` holds a single item whose embedding is the empty list (fails
the shape checks, passes the presence filter).  Listing order deliberately
unsorted to exercise the name sort. -/
def diskTwoEras : Disk := fun c =>
  if c = "work" then
    some [("2020s.json", .doc [itemEmptyEmb]), ("1900s.json", .doc [itemGood])]
  else none

/-- C4: the claim requires an era whose every item is invalid (fails the
shape checks) to be dropped from the timeline entirely.  Evaluating the code
at the failing input: the `2020s` era, whose only item has an empty
embedding, is NOT dropped — the timeline has both eras.  (The parts of the
claim the code does satisfy are visible too: sorted era-file order, first
era's drift `0.0`; the kept invalid era has drift `0.0` against the `1900s`
centroid because its own centroid is `None`.) -/
theorem build_timeline_keeps_shape_invalid_era :
    (build_timeline_for_query diskTwoEras [] "work" [1] 6).1.map
        (fun r => r.timeline.map TimelineEntry.era) = .ok ["1900s", "2020s"] ∧
    (build_timeline_for_query diskTwoEras [] "work" [1] 6).1.map
        (fun r => r.timeline.map TimelineEntry.centroid_shift_from_prev) =
      .ok [0, 0] ∧
    validate_item itemEmptyEmb = false :=
  ⟨rfl, rfl, by decide⟩

/-! ### Similarity-search lemmas (C3) -/

theorem extractEmbs_ok_length :
    ∀ (items : List RawItem) (embs : List (List ℚ)),
      extractEmbs items = .ok embs → embs.length = items.length := by
  intro items
  induction items with
  | nil =>
    intro embs h
    cases h
    rfl
  | cons it t ih =>
    intro embs h
    rw [extractEmbs] at h
    cases hbe : it.embedding with
    | none => rw [hbe] at h; simp at h
    | some v =>
      cases v with
      | notArr => rw [hbe] at h; simp at h
      | arr xs =>
        rw [hbe] at h
        cases ht : extractEmbs t with
        | error e => rw [ht] at h; simp at h
        | ok rest =>
          rw [ht] at h
          cases h
          simp [ih rest ht]

theorem toNumpyEmbeddings_ok_length (items : List RawItem)
    (embs : List (List ℚ)) (h : toNumpyEmbeddings items = .ok embs) :
    embs.length = items.length := by
  unfold toNumpyEmbeddings at h
  by_cases hi : items.isEmpty
  · rw [if_pos hi] at h
    cases h
    simp [List.isEmpty_iff.mp hi]
  · rw [if_neg hi] at h
    cases he : extractEmbs items with
    | error e => rw [he] at h; simp at h
    | ok embs0 =>
      rw [he] at h
      have hlen := extractEmbs_ok_length items embs0 he
      cases embs0 with
      | nil =>
        cases h
        exact hlen
      | cons e0 rest =>
        have h' : (if (rest.all fun r => decide (r.length = e0.length)) = true
            then (Except.ok (e0 :: rest) : Except Unit (List (List ℚ)))
            else .error ()) = .ok embs := h
        by_cases hr : (rest.all fun r => decide (r.length = e0.length)) = true
        · rw [if_pos hr] at h'
          cases h'
          exact hlen
        · rw [if_neg hr] at h'
          simp at h'

theorem buildOut_ok_forall2 (items : List RawItem) (sims : List ℝ) :
    ∀ (idx : List ℕ) (out : List OutEntry),
      buildOut items sims idx = .ok out →
      List.Forall₂ (fun i r =>
        (items.getD i default).id = some r.id ∧
        (items.getD i default).text = some r.text ∧
        r.score = sims.getD i 0) idx out := by
  intro idx
  induction idx with
  | nil =>
    intro out h
    cases h
    exact List.Forall₂.nil
  | cons i t ih =>
    intro out h
    rw [buildOut] at h
    cases hid : (items.getD i default).id with
    | none => rw [hid] at h; simp at h
    | some s =>
      cases htx : (items.getD i default).text with
      | none => rw [hid, htx] at h; simp at h
      | some tx =>
        rw [hid, htx] at h
        cases hrest : buildOut items sims t with
        | error e => rw [hrest] at h; simp at h
        | ok rest =>
          rw [hrest] at h
          cases h
          exact List.Forall₂.cons ⟨hid, htx, rfl⟩ (ih rest hrest)

theorem forall2_exists_left {α β : Type} {R : α → β → Prop} :
    ∀ {l1 : List α} {l2 : List β}, List.Forall₂ R l1 l2 →
      ∀ b ∈ l2, ∃ a ∈ l1, R a b := by
  intro l1 l2 h
  induction h with
  | nil => intro b hb; cases hb
  | cons hab htail ih =>
    intro b hb
    rcases List.mem_cons.mp hb with rfl | hb
    · exact ⟨_, List.mem_cons_self _ _, hab⟩
    · obtain ⟨a, ha, hr⟩ := ih b hb
      exact ⟨a, List.mem_cons_of_mem _ ha, hr⟩

theorem forall2_map_eq {α β γ : Type} {f : α → γ} {g : β → γ}
    {R : α → β → Prop} (hfg : ∀ a b, R a b → g b = f a) :
    ∀ {l1 : List α} {l2 : List β}, List.Forall₂ R l1 l2 →
      l2.map g = l1.map f := by
  intro l1 l2 h
  induction h with
  | nil => rfl
  | cons hab _ ih => simp [hfg _ _ hab, ih]

/-- The lexicographic (value, then original index) order that a stable
ascending argsort realizes on distinct indices. -/
def simLex (sims : List ℝ) (i j : ℕ) : Prop :=
  sims.getD i 0 < sims.getD j 0 ∨
    (sims.getD i 0 = sims.getD j 0 ∧ i ≤ j)

theorem simLex_le {sims : List ℝ} {i j : ℕ} (h : simLex sims i j) :
    simLE sims i j :=
  h.elim le_of_lt (fun h' => le_of_eq h'.1)

theorem orderedInsert_lex (sims : List ℝ) (a : ℕ) :
    ∀ l : List ℕ, l.Pairwise (simLex sims) → (∀ j ∈ l, a < j) →
      (List.orderedInsert (simLE sims) a l).Pairwise (simLex sims) := by
  intro l
  induction l with
  | nil =>
    intro _ _
    simp [List.orderedInsert]
  | cons b t ih =>
    intro hp ha
    rw [List.orderedInsert]
    by_cases hab : simLE sims a b
    · rw [if_pos hab]
      rw [List.pairwise_cons]
      refine ⟨?_, hp⟩
      intro j hj
      rcases List.mem_cons.mp hj with rfl | hj
      · rcases lt_or_eq_of_le hab with hlt | heq
        · exact Or.inl hlt
        · exact Or.inr ⟨heq, le_of_lt (ha j (List.mem_cons_self _ _))⟩
      · have hbj := (List.pairwise_cons.mp hp).1 j hj
        have haj : simLE sims a j := le_trans hab (simLex_le hbj)
        rcases lt_or_eq_of_le haj with hlt | heq
        · exact Or.inl hlt
        · exact Or.inr ⟨heq, le_of_lt (ha j (List.mem_cons_of_mem _ hj))⟩
    · rw [if_neg hab]
      rw [List.pairwise_cons]
      constructor
      · intro j hj
        rcases (List.mem_orderedInsert (simLE sims)).mp hj with rfl | hj
        · exact Or.inl (lt_of_not_le hab)
        · exact (List.pairwise_cons.mp hp).1 j hj
      · exact ih (List.pairwise_cons.mp hp).2
          (fun j hj => ha j (List.mem_cons_of_mem _ hj))

theorem insertionSort_lex (sims : List ℝ) :
    ∀ l : List ℕ, l.Pairwise (· < ·) →
      (List.insertionSort (simLE sims) l).Pairwise (simLex sims) := by
  intro l
  induction l with
  | nil =>
    intro _
    simp
  | cons a t ih =>
    intro hp
    rw [List.insertionSort]
    apply orderedInsert_lex
    · exact ih (List.pairwise_cons.mp hp).2
    · intro j hj
      have hjt : j ∈ t :=
        (List.perm_insertionSort (simLE sims) t).mem_iff.mp hj
      exact (List.pairwise_cons.mp hp).1 j hjt

theorem argsortAsc_lex (sims : List ℝ) :
    (argsortAsc sims).Pairwise (simLex sims) :=
  insertionSort_lex sims _ (List.pairwise_lt_range _)

theorem argsortAsc_mem (sims : List ℝ) (i : ℕ) (h : i ∈ argsortAsc sims) :
    i < sims.length := by
  have hm := (List.perm_insertionSort (simLE sims)
    (List.range sims.length)).mem_iff.mp h
  simpa using hm

theorem argsortAsc_nodup (sims : List ℝ) : (argsortAsc sims).Nodup :=
  ((List.perm_insertionSort _ _).nodup_iff).mpr (List.nodup_range _)

/-- C3 (amended): whenever `top_similar_in_era` returns (it can only raise
on a query/item dimension mismatch), it returns at most
`min(top_n, len(items))` results, every returned id is drawn from the input
items, and the results are sorted by descending cosine-similarity score —
but items with equal scores appear in the REVERSE of their original input
order (the stable ascending `np.argsort` is reversed wholesale by `[::-1]`,
flipping ties), which is still reproducible given identical input order.
The final disjunct exhibits the selected index list: strictly descending in
(score, then original position) — equal-score indices descend — with the
output linked entry-by-entry to the selected items and scores. -/
theorem top_similar_contract (query_emb : List ℚ) (items : List RawItem)
    (top_n : Nat) (out : List OutEntry)
    (h : top_similar_in_era query_emb items top_n = .ok out) :
    out.length ≤ min top_n items.length ∧
    (∀ r ∈ out, r.id ∈ items.filterMap RawItem.id) ∧
    (out.map OutEntry.score).Pairwise (fun x y => y ≤ x) ∧
    (out = [] ∨
      ∃ embs, toNumpyEmbeddings items = .ok embs ∧
      ∃ idx : List ℕ,
        (∀ i ∈ idx, i < items.length) ∧
        idx.Pairwise (fun i j =>
          (simVals query_emb embs).getD j 0 ≤
            (simVals query_emb embs).getD i 0 ∧
          ((simVals query_emb embs).getD i 0 =
            (simVals query_emb embs).getD j 0 → j < i)) ∧
        List.Forall₂ (fun i r =>
          (items.getD i default).id = some r.id ∧
          (items.getD i default).text = some r.text ∧
          r.score = (simVals query_emb embs).getD i 0) idx out) := by
  unfold top_similar_in_era at h
  by_cases h1 : items.isEmpty = true
  · rw [if_pos h1] at h
    cases h
    exact ⟨by simp, by simp, by simp, Or.inl rfl⟩
  · rw [if_neg h1] at h
    by_cases h2 : query_emb.isEmpty = true
    · rw [if_pos h2] at h
      cases h
      exact ⟨by simp, by simp, by simp, Or.inl rfl⟩
    · rw [if_neg h2] at h
      cases htn : toNumpyEmbeddings items with
      | error e =>
        rw [htn] at h
        cases h
        exact ⟨by simp, by simp, by simp, Or.inl rfl⟩
      | ok embs =>
        rw [htn] at h
        have h' : (if embsSize embs = 0
            then (Except.ok [] : Except Unit (List OutEntry))
            else if (embs.any fun e => decide (e.length ≠ query_emb.length))
                = true then .error ()
            else buildOut items (simVals query_emb embs)
              ((argsortAsc (simVals query_emb embs)).reverse.take
                (min top_n items.length))) = .ok out := h
        by_cases h3 : embsSize embs = 0
        · rw [if_pos h3] at h'
          cases h'
          exact ⟨by simp, by simp, by simp, Or.inl rfl⟩
        · rw [if_neg h3] at h'
          by_cases h4 : (embs.any fun e => decide (e.length ≠ query_emb.length))
              = true
          · rw [if_pos h4] at h'
            simp at h'
          · rw [if_neg h4] at h'
            set sims := simVals query_emb embs with hsims
            set idx := (argsortAsc sims).reverse.take (min top_n items.length)
              with hidx
            have hf2 := buildOut_ok_forall2 items sims idx out h'
            have hlen_embs : embs.length = items.length :=
              toNumpyEmbeddings_ok_length items embs htn
            have hlen_sims : sims.length = items.length := by
              simp [hsims, simVals, hlen_embs]
            have hmem : ∀ i ∈ idx, i < items.length := by
              intro i hi
              have h5 : i ∈ (argsortAsc sims).reverse :=
                (List.take_sublist _ _).subset hi
              have h6 : i ∈ argsortAsc sims := List.mem_reverse.mp h5
              have h7 := argsortAsc_mem sims i h6
              omega
            have hlex : idx.Pairwise (fun i j => simLex sims j i ∧ i ≠ j) := by
              have hrev : ((argsortAsc sims).reverse).Pairwise
                  (fun i j => simLex sims j i) :=
                List.pairwise_reverse.mpr (argsortAsc_lex sims)
              have hnd : ((argsortAsc sims).reverse).Nodup :=
                List.nodup_reverse.mpr (argsortAsc_nodup sims)
              exact List.Pairwise.sublist (List.take_sublist _ _)
                (hrev.and hnd)
            have hpw : idx.Pairwise (fun i j =>
                sims.getD j 0 ≤ sims.getD i 0 ∧
                (sims.getD i 0 = sims.getD j 0 → j < i)) := by
              refine hlex.imp ?_
              rintro i j ⟨hji, hne⟩
              refine ⟨simLex_le hji, fun heq => ?_⟩
              rcases hji with hlt | ⟨heq', hle⟩
              · rw [heq] at hlt
                exact absurd hlt (lt_irrefl _)
              · exact lt_of_le_of_ne hle (Ne.symm hne)
            have hout_len : out.length = idx.length := hf2.length_eq.symm
            have hidx_len : idx.length ≤ min top_n items.length := by
              rw [hidx]
              exact List.length_take_le _ _
            have hids : ∀ r ∈ out, r.id ∈ items.filterMap RawItem.id := by
              intro r hr
              obtain ⟨i, hiidx, hP⟩ := forall2_exists_left hf2 r hr
              have hilt : i < items.length := hmem i hiidx
              refine List.mem_filterMap.mpr ⟨items.getD i default, ?_, hP.1⟩
              rw [List.getD_eq_getElem _ _ hilt]
              exact List.getElem_mem _
            have hmap : out.map OutEntry.score =
                idx.map (fun i => sims.getD i 0) :=
              forall2_map_eq (fun i r hir => hir.2.2) hf2
            have hscores : (out.map OutEntry.score).Pairwise
                (fun x y => y ≤ x) := by
              rw [hmap, List.pairwise_map]
              exact hpw.imp (fun hab => hab.1)
            exact ⟨by rw [hout_len]; exact hidx_len, hids, hscores,
              Or.inr ⟨embs, rfl, idx, hmem, hpw, hf2⟩⟩

theorem top_similar_contract_witness :
    top_similar_in_era [1] [itemGood] 1 =
      .ok [⟨"a", "ta", cosSim [1] [1]⟩] ∧
    ([(⟨"a", "ta", cosSim [1] [1]⟩ : OutEntry)]).length ≤
      min 1 [itemGood].length ∧
    ∀ r ∈ [(⟨"a", "ta", cosSim [1] [1]⟩ : OutEntry)],
      r.id ∈ [itemGood].filterMap RawItem.id := by
  have h : top_similar_in_era [1] [itemGood] 1 =
      .ok [⟨"a", "ta", cosSim [1] [1]⟩] := rfl
  have hc := top_similar_contract [1] [itemGood] 1 _ h
  exact ⟨h, hc.1, hc.2.1⟩

/-- A second item sharing the embedding of `itemGood`, so the two scores tie
exactly. -/
def itemTie : RawItem := ⟨some "b", some "tb", some (.arr [1])⟩

/-- C3 counterexample: two items with identical embeddings (equal scores) in
input order `["a", "b"]`.  The claim requires ties in original input order;
the code's `np.argsort(sims)[::-1]` (stable ascending argsort, then a
wholesale reversal) emits them as `["b", "a"]` — the reverse. -/
theorem top_similar_tie_order_reversed :
    (top_similar_in_era [1] [itemGood, itemTie] 2).map
      (List.map OutEntry.id) = .ok ["b", "a"] := by
  have h1 : List.insertionSort (simLE (simVals [1] [[1], [1]])) [1] = [1] :=
    rfl
  have hins : List.insertionSort (simLE (simVals [1] [[1], [1]])) [0, 1] =
      [0, 1] := by
    calc List.insertionSort (simLE (simVals [1] [[1], [1]])) [0, 1]
        = List.orderedInsert (simLE (simVals [1] [[1], [1]])) 0
            (List.insertionSort (simLE (simVals [1] [[1], [1]])) [1]) := rfl
      _ = List.orderedInsert (simLE (simVals [1] [[1], [1]])) 0 [1] := by
          rw [h1]
      _ = [0, 1] := by
          rw [List.orderedInsert,
            if_pos (show simLE (simVals [1] [[1], [1]]) 0 1 from le_refl _)]
  have hargs : argsortAsc (simVals [1] [[1], [1]]) = [0, 1] := hins
  have htop : top_similar_in_era [1] [itemGood, itemTie] 2 =
      buildOut [itemGood, itemTie] (simVals [1] [[1], [1]])
        ((argsortAsc (simVals [1] [[1], [1]])).reverse.take 2) := rfl
  rw [htop, hargs]
  rfl

end Echoes
